import Mathlib

/-!
Verification development for the hw-app-ckb client library (src/Ckb.js).

The definitions below are a shallow embedding of the JavaScript source:
pure computations become Lean functions, device interaction is modelled by
the list of APDU frames an operation sends together with the device
responses it consumes, and JavaScript `undefined` is modelled by `Option`.
External collaborators (the blake2b hash primitive and the molecule
serializer/deserializer for raw transactions) are abstract parameters; the
external bech32 npm package and the bip32-path npm package are modelled
from the specification of those collaborators, as noted on each definition.
Bytes are natural numbers below 256; hex-string rendering of returned byte
buffers is injective presentation and is kept as raw byte lists.
-/

namespace HwAppCkb

/-- One APDU command frame sent to the device: class, instruction, the two
parameter bytes and the data payload, mirroring the argument list of
`transport.send(cla, ins, p1, p2, data)` in the source. -/
structure APDU where
  cla : Nat
  ins : Nat
  p1 : Nat
  p2 : Nat
  data : List Nat
deriving DecidableEq, Repr, Inhabited

/-- Command class byte, `CLA = 0x80` in the source. -/
def CLA : Nat := 0x80

/-- Instruction code for public-key derivation, `INS_GET_PUBLIC_KEY = 0x02`. -/
def INS_GET_PUBLIC_KEY : Nat := 0x02

/-- Instruction code for transaction signing, `INS_SIGN_TX = 0x03`. -/
def INS_SIGN_TX : Nat := 0x03

/-- Instruction code for extended-public-key retrieval, `0x04` in the source. -/
def INS_GET_EXTENDED_PUBKEY : Nat := 0x04

/-- Instruction code for message signing, `INS_SIGN_MSG = 0x06`. -/
def INS_SIGN_MSG : Nat := 0x06

/-- First-parameter byte for an initialization frame, `P1_INIT = 0x00`. -/
def P1_INIT : Nat := 0x00

/-- First-parameter byte for a continuation frame, `P1_CONTINUE = 0x01`. -/
def P1_CONTINUE : Nat := 0x01

/-- Last-chunk flag bit, `P1_LAST_MARKER = 0x80`. -/
def P1_LAST_MARKER : Nat := 0x80

/-- First-parameter byte for a final chunk, `P1_FINAL = 0x81`. -/
def P1_FINAL : Nat := 0x81

/-- Second-parameter byte, `P2_DEFAULT = 0x00`. -/
def P2_DEFAULT : Nat := 0x00

/-- Maximum data size per APDU, `MAX_APDU_SIZE = 230` in the source. -/
def MAX_APDU_SIZE : Nat := 230

/-- Size of a returned signature, `SIGNATURE_SIZE = 65` in the source. -/
def SIGNATURE_SIZE : Nat := 65

/-- Bech32m length limit used for CKB addresses, `BECH32_LIMIT = 1023`. -/
def BECH32_LIMIT : Nat := 1023

/-- The hardened marker character (ASCII 39) of BIP 32 path text. -/
def hardenedMarker : Char := Char.ofNat 39

/-- Numeric value of a list of decimal digit characters. -/
def charsToNat (cs : List Char) : Nat :=
  cs.foldl (fun acc c => acc * 10 + (c.toNat - 48)) 0

/-- Splitting a character list on a separator character; the result always
has at least one group, and a separator at either end produces an empty
group there. -/
def splitChars (sep : Char) : List Char → List (List Char)
  | [] => [[]]
  | c :: rest =>
      match splitChars sep rest with
      | [] => if c = sep then [[], []] else [[c]]
      | g :: gs => if c = sep then [] :: g :: gs else (c :: g) :: gs

/-- Modelled from the spec: one segment of the external bip32-path parser
(PathCodec.parse); the source file itself only calls
`BIPPath.fromString(path).toPathArray()`.  A segment is decimal digits
optionally followed by a hardened marker (ASCII 39, h or H); a hardened
segment gets the high bit added; the index must fit in 31 bits.  `none`
models the error thrown on a malformed segment. -/
def parseSegmentChars (cs : List Char) : Option Nat :=
  let hardened :=
    match cs.getLast? with
    | some c => c == hardenedMarker || c == 'h' || c == 'H'
    | none => false
  let digits := if hardened then cs.dropLast else cs
  if digits.isEmpty || !(digits.all Char.isDigit) then none
  else
    let n := charsToNat digits
    if n < 0x80000000 then some (if hardened then n + 0x80000000 else n)
    else none

/-- Modelled from the spec: the external bip32-path string parser used via
`BIPPath.fromString`; an optional leading root marker "m/" is skipped and
the remainder is split on the path separator into segments.  `none` models
the `InvalidPathError` thrown on malformed segments. -/
def parseBipPath (text : String) : Option (List Nat) :=
  let cs :=
    match text.data with
    | 'm' :: '/' :: rest => rest
    | 'M' :: '/' :: rest => rest
    | l => l
  (splitChars '/' cs).mapM parseSegmentChars

/-- Big-endian 4-byte encoding of one path segment, mirroring
`data.writeUInt32BE(segment, offset)` in the source. -/
def uint32BE (seg : Nat) : List Nat :=
  [seg / 2 ^ 24 % 256, seg / 2 ^ 16 % 256, seg / 2 ^ 8 % 256, seg % 256]

/-- The path encoding of PathCodec: one length byte followed by four
big-endian bytes per segment.  `writeUInt8` stores the low byte, hence the
reduction modulo 256; the data model bounds path length by 255. -/
def encodePath (path : List Nat) : List Nat :=
  path.length % 256 :: (path.map uint32BE).flatten

/-- Request payload built by `getWalletPublicKey` (source lines 78 to 83):
a length byte followed by each segment as four big-endian bytes. -/
def getWalletPublicKeyData (bipPath : List Nat) : List Nat :=
  bipPath.length % 256 :: (bipPath.map uint32BE).flatten

/-- Request payload built by `getWalletExtendedPublicKey` (source lines 146
to 151), textually repeating the same buffer construction. -/
def getWalletExtendedPublicKeyData (bipPath : List Nat) : List Nat :=
  bipPath.length % 256 :: (bipPath.map uint32BE).flatten

/-- Initialization payload built by `signMessage` (source lines 374 to
379): a display-mode byte, then a length byte, then each segment as four
big-endian bytes. -/
def signMessageInitData (displayHex : Bool) (bipPath : List Nat) : List Nat :=
  (if displayHex then 1 else 0) :: bipPath.length % 256 :: (bipPath.map uint32BE).flatten

/-- Modelled from the spec: the natural byte-level inverse of the segment
list encoding, reading four big-endian bytes per segment. -/
def decodeSegments : List Nat → Option (List Nat)
  | [] => some []
  | a :: b :: c :: d :: rest =>
      (decodeSegments rest).map (fun t => (((a * 256 + b) * 256 + c) * 256 + d) :: t)
  | _ => none

/-- Modelled from the spec: parsing an encoded path back, one length byte
then exactly four bytes per segment. -/
def decodePath : List Nat → Option (List Nat)
  | [] => none
  | n :: body => if body.length = 4 * n then decodeSegments body else none

/-- The APDU frames sent by `signAnnotatedTransaction` (source lines 277 to
293) for a given serialized annotated transaction: one frame per full
230-byte chunk, the first with `isContinuation = 0x00` and later ones with
`0x01`, followed by one frame for the remaining bytes whose first
parameter additionally carries the `0x80` last-chunk bit. -/
def signAnnotatedTransactionFrames (rawAnTx : List Nat) : List APDU :=
  let maxApduSize := 230
  let txFullChunks := rawAnTx.length / maxApduSize
  let fullFrames := (List.range txFullChunks).map (fun i =>
    { cla := 0x80, ins := 0x03,
      p1 := if i = 0 then 0x00 else 0x01,
      p2 := 0x00,
      data := (rawAnTx.drop (i * maxApduSize)).take maxApduSize })
  let isContinuation : Nat := if txFullChunks = 0 then 0x00 else 0x01
  let lastOffset := txFullChunks * maxApduSize
  let lastData := (rawAnTx.drop lastOffset).take maxApduSize
  fullFrames ++
    [{ cla := 0x80, ins := 0x03, p1 := isContinuation ||| 0x80, p2 := 0x00,
       data := lastData }]

/-- The result extraction of `signAnnotatedTransaction` (source line 294):
the first 65 bytes of the response to the final chunk.  `Buffer.slice`
truncates at the end of the buffer, so a shorter response yields all of
its bytes. -/
def signAnnotatedTransactionResult (finalResponse : List Nat) : List Nat :=
  finalResponse.take 65

/-- The domain-separation tag prepended by `signMessage`: the bytes of
"Nervos Message:". -/
def NervosMessageMagic : List Nat :=
  [78, 101, 114, 118, 111, 115, 32, 77, 101, 115, 115, 97, 103, 101, 58]

/-- The data-carrying APDU frames sent by `signMessage` (source lines 391
to 420) for the tag-prefixed message bytes: one continuation frame per
full 230-byte chunk, then the remaining bytes in a final frame marked
`P1_FINAL`. -/
def signMessageDataFrames (rawMsg : List Nat) : List APDU :=
  let fullChunksCount := rawMsg.length / MAX_APDU_SIZE
  let contFrames := (List.range fullChunksCount).map (fun i =>
    { cla := CLA, ins := INS_SIGN_MSG, p1 := P1_CONTINUE, p2 := P2_DEFAULT,
      data := (rawMsg.drop (i * MAX_APDU_SIZE)).take MAX_APDU_SIZE })
  let lastChunkOffset := fullChunksCount * MAX_APDU_SIZE
  contFrames ++
    [{ cla := CLA, ins := INS_SIGN_MSG, p1 := P1_FINAL, p2 := P2_DEFAULT,
       data := rawMsg.drop lastChunkOffset }]

/-- All APDU frames sent by `signMessage`: the initialization frame with
display flag and path encoding, then the data frames over the
tag-prefixed message. -/
def signMessageFrames (bipPath : List Nat) (msgBytes : List Nat)
    (displayHex : Bool) : List APDU :=
  { cla := CLA, ins := INS_SIGN_MSG, p1 := P1_INIT, p2 := P2_DEFAULT,
    data := signMessageInitData displayHex bipPath } ::
  signMessageDataFrames (NervosMessageMagic ++ msgBytes)

/-- The result extraction of `signMessage` (source line 423): the first
`SIGNATURE_SIZE` bytes of the response to the final chunk. -/
def signMessageResult (finalResponse : List Nat) : List Nat :=
  finalResponse.take SIGNATURE_SIZE

/-- A raw transaction as produced by the external molecule codec
(`RawTransactionJSON`).  The client never inspects the contents of any
field other than `inputs`, and of `inputs` only the spine of the list, so
all component values are drawn from one abstract type `α`. -/
structure RawTx (α : Type) where
  version : α
  cell_deps : List α
  header_deps : List α
  inputs : List α
  outputs : List α
  outputs_data : List α
deriving DecidableEq, Repr, Inhabited

/-- One annotated cell input: the original input paired with the context
transaction at the same index.  `source` is `none` when the JavaScript
array access `contextTransactions[idx]` falls off the end and yields
`undefined`. -/
structure AnnotatedCellInput (α : Type) where
  input : α
  source : Option (RawTx α)
deriving DecidableEq, Repr, Inhabited

/-- The raw transaction inside an annotated transaction: all fields of the
input raw transaction with `inputs` replaced by annotated cell inputs. -/
structure AnnotatedRawTx (α : Type) where
  version : α
  cell_deps : List α
  header_deps : List α
  inputs : List (AnnotatedCellInput α)
  outputs : List α
  outputs_data : List α
deriving DecidableEq, Repr, Inhabited

/-- The `AnnotatedTransactionJSON` returned by `buildAnnotatedTransaction`.
The two paths are `Option` valued because `prepBipPath` returns the
JavaScript value `undefined` when its argument is neither an array, an
object, nor a string. -/
structure AnnotatedTx (α : Type) where
  signPath : Option (List Nat)
  changePath : Option (List Nat)
  inputCount : Nat
  raw : AnnotatedRawTx α
  witnesses : List String
deriving DecidableEq, Repr, Inhabited

/-- The error values thrown inside the modelled client code.  The only
throw site reachable from `buildAnnotatedTransaction` is the path parser
of the bip32-path collaborator; no other error is raised anywhere in the
function (in particular the source contains no mismatched-context check
and no error value for it). -/
inductive CkbError where
  | invalidPathError
deriving DecidableEq, Repr

/-- The runtime-polymorphic path argument accepted by
`buildAnnotatedTransaction`: a plain index array, a prebuilt BIPPath
object (represented by what its `toPathArray()` returns), a path string,
or the omitted argument `undefined`. -/
inductive PathSrc where
  | arr (a : List Nat)
  | obj (pathArray : List Nat)
  | str (s : String)
  | undef
deriving DecidableEq, Repr, Inhabited

/-- The `prepBipPath` helper of `buildAnnotatedTransaction` (source lines
214 to 224): arrays pass through, objects are asked for their path array,
strings are parsed (a parse failure throws), and any other value - in
particular an omitted argument - falls off the end of the function and
yields `undefined`. -/
def prepBipPath : PathSrc → Except CkbError (Option (List Nat))
  | .arr a => .ok (some a)
  | .obj p => .ok (some p)
  | .str s =>
      match parseBipPath s with
      | some a => .ok (some a)
      | none => .error .invalidPathError
  | .undef => .ok none

/-- A raw-transaction argument: either a hex string to be decoded by the
external molecule codec, or an already unpacked object. -/
inductive RawTxSrc (α : Type) where
  | hex (s : String)
  | json (t : RawTx α)
deriving DecidableEq, Repr

/-- The `getRawTransactionJSON` helper of `buildAnnotatedTransaction`
(source lines 229 to 235), with the external molecule decoder passed in as
`decode`. -/
def getRawTransactionJSON {α : Type} (decode : String → RawTx α) :
    RawTxSrc α → RawTx α
  | .hex s => decode s
  | .json t => t

/-- The placeholder witness constant `defaultSighashWitness` (source line
301): a serialized empty WitnessArgs with space for one sighash
signature. -/
def defaultSighashWitness : String :=
  "55000000100000005500000055000000410000000000000000000000000000000000000000000000000000000000000000000000000000000000000000000000000000000000000000000000000000000000000000"

/-- The embedding of `buildAnnotatedTransaction` (source lines 207 to 265):
prepare both paths, unpack the context transactions and the raw
transaction, pair each input with the context transaction at the same
index, keep every other raw-transaction field, and fill in witnesses with
the supplied ones when they form a nonempty array and with the placeholder
otherwise. -/
def buildAnnotatedTransaction {α : Type} (decode : String → RawTx α)
    (signPath : PathSrc) (rawTx : RawTxSrc α)
    (groupWitnesses : Option (List String)) (rawContextsTx : List (RawTxSrc α))
    (changePath : PathSrc) : Except CkbError (AnnotatedTx α) := do
  let signBipPath ← prepBipPath signPath
  let changeBipPath ← prepBipPath changePath
  let contextTransactions := rawContextsTx.map (getRawTransactionJSON decode)
  let rawTxUnpacked := getRawTransactionJSON decode rawTx
  let annotatedCellInputVec := rawTxUnpacked.inputs.mapIdx (fun idx inpt =>
    { input := inpt, source := contextTransactions[idx]? })
  let annotatedRawTransaction : AnnotatedRawTx α :=
    { version := rawTxUnpacked.version
      cell_deps := rawTxUnpacked.cell_deps
      header_deps := rawTxUnpacked.header_deps
      inputs := annotatedCellInputVec
      outputs := rawTxUnpacked.outputs
      outputs_data := rawTxUnpacked.outputs_data }
  let witnesses :=
    match groupWitnesses with
    | some ws => if ws.length > 0 then ws else [defaultSighashWitness]
    | none => [defaultSighashWitness]
  return { signPath := signBipPath, changePath := changeBipPath,
           inputCount := rawTxUnpacked.inputs.length,
           raw := annotatedRawTransaction, witnesses := witnesses }

/-- The transport handle owned by the client: the log of frames sent so
far and the responses the device will deliver. -/
structure Transport where
  sent : List APDU
  responses : List (List Nat)
deriving DecidableEq, Repr, Inhabited

/-- The stateful view of `buildAnnotatedTransaction`: the source method
body contains no reference to `this.transport`, so its embedding as an
operation on the transport handle returns the pure result and passes the
handle through untouched. -/
def buildAnnotatedTransactionOp {α : Type} (decode : String → RawTx α)
    (signPath : PathSrc) (rawTx : RawTxSrc α)
    (groupWitnesses : Option (List String)) (rawContextsTx : List (RawTxSrc α))
    (changePath : PathSrc) (tr : Transport) :
    Except CkbError (AnnotatedTx α) × Transport :=
  (buildAnnotatedTransaction decode signPath rawTx groupWitnesses rawContextsTx
    changePath, tr)

/-- Extract the success value of an `Except`, with a default for the error
case; used to state closed facts about concrete successful calls. -/
def okValue {ε β : Type} [Inhabited β] : Except ε β → β
  | .ok b => b
  | .error _ => default

/-- The 16-byte blake2b personalization tag used for the lock argument
(source line 93), the bytes of "ckb-default-hash". -/
def hashPersonalization : List Nat :=
  [99, 107, 98, 45, 100, 101, 102, 97, 117, 108, 116, 45, 104, 97, 115, 104]

/-- The fixed 32-byte code hash of the secp256k1+blake160 lock script
(source lines 105 to 111). -/
def SECP256K1_BLAKE160_CODE_HASH : List Nat :=
  [155, 215, 224, 111, 62, 207, 75,
   224, 242, 252, 210, 24, 139, 35,
   241, 185, 252, 200, 142, 93, 75,
   101, 168, 99, 123, 23, 114, 59,
   189, 163, 204, 232]

/-- The 33-byte compression step of `getWalletPublicKey` (source lines 90
to 92): the first byte is 0x03 when the low bit of byte 64 of the
uncompressed key (the last byte of the Y coordinate) is set and 0x02
otherwise, followed by bytes 1 to 32 (the X coordinate).  An absent byte
64 reads as the JavaScript `undefined`, whose bitwise-and with 1 is 0. -/
def compressedPublicKey (publicKey : List Nat) : List Nat :=
  (if publicKey.getD 64 0 &&& 1 ≠ 0 then 0x03 else 0x02) ::
    (publicKey.drop 1).take 32

/-- The lock argument computed by `getWalletPublicKey` (source lines 94 to
99): the first 20 bytes of the 32-byte personalized blake2b digest of the
compressed public key.  The blake2b collaborator is abstract: it maps a
requested digest length, a personalization tag and a message to a digest. -/
def deriveLockArg (blake2b : Nat → List Nat → List Nat → List Nat)
    (publicKey : List Nat) : List Nat :=
  (blake2b 32 hashPersonalization (compressedPublicKey publicKey)).take 20

/-- The address payload assembled by `getWalletPublicKey` (source lines 101
to 116): format byte 0x00, the fixed code hash, hash-type byte 0x01, then
the lock argument. -/
def addrContents (lockArgBytes : List Nat) : List Nat :=
  0x00 :: SECP256K1_BLAKE160_CODE_HASH ++ 0x01 :: lockArgBytes

/-- Modelled from the spec: the character alphabet of the external
checksummed base-32 encoder (the bech32 npm package). -/
def bech32Alphabet : List Char := "qpzry9x8gf2tvdw0s3jn54khce6mua7l".data

/-- Modelled from the spec: the five checksum generator constants of the
external bech32m encoder. -/
def bech32Generator : List Nat :=
  [0x3b6a57b2, 0x26508e6d, 0x1ea119fa, 0x3d4233dd, 0x2a1462b3]

/-- Modelled from the spec: one checksum step of the external bech32m
encoder. -/
def polymodStep (pre : Nat) : Nat :=
  let b := pre >>> 25
  let chk := (pre &&& 0x1ffffff) <<< 5
  (List.range 5).foldl
    (fun chk i => if (b >>> i) &&& 1 = 1 then chk ^^^ bech32Generator.getD i 0 else chk)
    chk

/-- Modelled from the spec: validity of a human-readable part for the
external bech32m encoder, every character between ASCII 33 and 126. -/
def hrpValid (hrp : String) : Bool :=
  hrp.data.all (fun c => decide (33 ≤ c.toNat) && decide (c.toNat ≤ 126))

/-- Modelled from the spec: the checksum state of the external bech32m
encoder after absorbing the human-readable part. -/
def hrpChecksum (hrp : String) : Nat :=
  let chk := hrp.data.foldl (fun chk c => polymodStep chk ^^^ (c.toNat >>> 5)) 1
  let chk := polymodStep chk
  hrp.data.foldl (fun chk c => polymodStep chk ^^^ (c.toNat &&& 31)) chk

/-- Modelled from the spec: the final-constant of the bech32m variant of
the external encoder. -/
def bech32mConst : Nat := 0x2bc830a3

/-- Modelled from the spec: the characters after the separator of an
encoded bech32m string, one alphabet character per 5-bit word followed by
six checksum characters. -/
def bech32mData (hrp : String) (words : List Nat) : List Char :=
  let chk := words.foldl (fun chk w => polymodStep chk ^^^ w) (hrpChecksum hrp)
  let chk := (List.range 6).foldl (fun chk _ => polymodStep chk) chk
  let chk := chk ^^^ bech32mConst
  words.map (fun w => bech32Alphabet.getD w 'q') ++
    (List.range 6).map (fun i => bech32Alphabet.getD ((chk >>> ((5 - i) * 5)) &&& 31) 'q')

/-- Modelled from the spec: the external bech32m string encoder
(`bech32m.encode(prefix, words, limit)`).  `none` models the exceptions
the library throws: an overall length above the limit, an invalid
human-readable part, or a word not fitting in 5 bits. -/
def bech32mEncode (hrp : String) (words : List Nat) (limit : Nat) : Option String :=
  if hrp.length + 7 + words.length > limit then none
  else
    let hrp := String.mk (hrp.data.map Char.toLower)
    if hrpValid hrp && words.all (fun w => decide (w < 32)) then
      some (String.mk (hrp.data ++ '1' :: bech32mData hrp words))
    else none

/-- Modelled from the spec: the emitting inner loop of the 8-bit to 5-bit
regrouping of the external encoder (`bech32m.toWords`); while at least 5
bits are pending, the topmost 5 are emitted. -/
def emitWords (value bits : Nat) : List Nat × Nat :=
  if 5 ≤ bits then
    let rest := emitWords value (bits - 5)
    (((value >>> (bits - 5)) &&& 31) :: rest.1, rest.2)
  else ([], bits)
termination_by bits

/-- Modelled from the spec: the byte loop of the 8-bit to 5-bit regrouping
of the external encoder; each byte is appended to the pending bits, full
5-bit words are emitted, and remaining bits are left-padded into one last
word.  Only the low 12 bits of the accumulator are ever consulted, so the
unbounded accumulator agrees with the 32-bit arithmetic of the library. -/
def convertBitsLoop : List Nat → Nat → Nat → List Nat
  | [], value, bits => if 0 < bits then [(value <<< (5 - bits)) &&& 31] else []
  | b :: rest, value, bits =>
      let value2 := (value <<< 8) ||| b
      let emitted := emitWords value2 (bits + 8)
      emitted.1 ++ convertBitsLoop rest value2 emitted.2

/-- Modelled from the spec: `bech32m.toWords`, regrouping bytes into 5-bit
words with padding. -/
def toWords (bytes : List Nat) : List Nat :=
  convertBitsLoop bytes 0 0

/-- The result record of `getWalletPublicKey` (source lines 123 to 127),
with byte lists in place of their hex renderings and the address as the
external encoder returns it. -/
structure WalletPublicKeyResult where
  publicKey : List Nat
  lockArg : List Nat
  address : Option String
deriving DecidableEq, Repr, Inhabited

/-- The response post-processing of `getWalletPublicKey` (source lines 85
to 127): read a length-prefixed public key from the device response,
compress it, hash it into the lock argument, assemble the address payload
and encode it with the network prefix, "ckt" for testnet and "ckb"
otherwise. -/
def getWalletPublicKeyResult (blake2b : Nat → List Nat → List Nat → List Nat)
    (testnet : Bool) (response : List Nat) : WalletPublicKeyResult :=
  let publicKeyLength := response.getD 0 0
  let publicKey := (response.drop 1).take publicKeyLength
  let la := deriveLockArg blake2b publicKey
  let addr := bech32mEncode (if testnet then "ckt" else "ckb")
    (toWords (addrContents la)) BECH32_LIMIT
  { publicKey := publicKey, lockArg := la, address := addr }

/-- The request frame sent by `getWalletPublicKey` (source line 85). -/
def getWalletPublicKeyApdu (bipPath : List Nat) : APDU :=
  { cla := CLA, ins := INS_GET_PUBLIC_KEY, p1 := P1_INIT, p2 := P2_DEFAULT,
    data := getWalletPublicKeyData bipPath }

/-- The request frame sent by `getWalletExtendedPublicKey` (source line
153). -/
def getWalletExtendedPublicKeyApdu (bipPath : List Nat) : APDU :=
  { cla := 0x80, ins := 0x04, p1 := 0x00, p2 := 0x00,
    data := getWalletExtendedPublicKeyData bipPath }

/-- The big-endian value of a byte list; used to speak about the numeric Y
coordinate of an uncompressed public key. -/
def beNat (bytes : List Nat) : Nat := bytes.foldl (fun acc b => acc * 256 + b) 0

/-- The Y coordinate of a 65-byte uncompressed public key: the big-endian
value of its last 32 bytes. -/
def yCoordinate (publicKey : List Nat) : Nat := beNat (publicKey.drop 33)

/-- The X coordinate of a 65-byte uncompressed public key: bytes 1 to 32. -/
def xCoordinate (publicKey : List Nat) : List Nat := (publicKey.drop 1).take 32

/-- A small concrete raw transaction with one input, used to instantiate
closed facts about concrete calls. -/
def sampleRawTx : RawTx Nat :=
  { version := 0, cell_deps := [], header_deps := [], inputs := [7],
    outputs := [], outputs_data := [] }

/-- A trivial concrete stand-in for the external molecule decoder, used to
instantiate closed facts about concrete calls. -/
def sampleDecode : String → RawTx Nat := fun _ => sampleRawTx

/-- A trivial concrete stand-in for the abstract blake2b collaborator,
returning a digest of the requested length. -/
def sampleBlake2b : Nat → List Nat → List Nat → List Nat :=
  fun outLen _ _ => List.range outLen

/-- Claim C1.  The claim states that a call of `buildAnnotatedTransaction`
whose context-transaction count differs from the input count fails with
`MismatchedContextError`.  The source contains no such check and no such
error: evaluated on a raw transaction with one input and an empty context
list, the call succeeds and silently pads the pairing, attaching the
JavaScript value `undefined` (here `none`) as the source of input 0. -/
theorem C1_silent_context_mismatch :
    buildAnnotatedTransaction sampleDecode (.arr [44]) (.json sampleRawTx) none
      [] (.arr [44]) =
    .ok { signPath := some [44], changePath := some [44], inputCount := 1,
          raw := { version := 0, cell_deps := [], header_deps := [],
                   inputs := [{ input := 7, source := none }], outputs := [],
                   outputs_data := [] },
          witnesses := [defaultSighashWitness] } := by
  rfl

/-- Claim C4.  The claim states that an omitted `changePath` defaults to
`signPath`.  In the source, `prepBipPath` falls through on `undefined` and
returns `undefined`, so the built transaction carries `changePath =
undefined` (here `none`), different from its `signPath`. -/
theorem C4_changePath_undefined :
    buildAnnotatedTransaction sampleDecode (.arr [44, 309]) (.json sampleRawTx)
      none [.json sampleRawTx] .undef =
    .ok { signPath := some [44, 309], changePath := none, inputCount := 1,
          raw := { version := 0, cell_deps := [], header_deps := [],
                   inputs := [{ input := 7, source := some sampleRawTx }],
                   outputs := [], outputs_data := [] },
          witnesses := [defaultSighashWitness] } ∧
    (none : Option (List Nat)) ≠ some [44, 309] := by
  exact ⟨rfl, by simp⟩

/-- Claim C10.  `buildAnnotatedTransaction` performs no transport exchange
and is deterministic: as an operation on the transport handle it returns
the handle untouched, sends no frame, and its result does not depend on
the transport state, so two calls with structurally equal arguments return
structurally equal results. -/
theorem C10_no_transport_pure {α : Type} (decode : String → RawTx α)
    (sp cp : PathSrc) (rt : RawTxSrc α) (gw : Option (List String))
    (ctxs : List (RawTxSrc α)) (tr tr2 : Transport) :
    (buildAnnotatedTransactionOp decode sp rt gw ctxs cp tr).2 = tr ∧
    (buildAnnotatedTransactionOp decode sp rt gw ctxs cp tr).2.sent = tr.sent ∧
    (buildAnnotatedTransactionOp decode sp rt gw ctxs cp tr).1 =
      (buildAnnotatedTransactionOp decode sp rt gw ctxs cp tr2).1 :=
  ⟨rfl, rfl, rfl⟩

/-- Claim C2, counterexample.  The claim predicts that a payload of exactly
1 × 230 bytes produces exactly one data frame marked continuation+final.
Evaluated on a 230-byte payload, both signing operations send two data
frames, and the first frame is not marked final. -/
theorem C2_chunking_counterexample :
    (signAnnotatedTransactionFrames (List.replicate 230 0)).length = 2 ∧
    ((signAnnotatedTransactionFrames (List.replicate 230 0)).getD 0 default).p1
      ≠ P1_FINAL ∧
    (signMessageDataFrames (List.replicate 230 0)).length = 2 ∧
    ((signMessageDataFrames (List.replicate 230 0)).getD 1 default).data = [] := by
  refine ⟨?_, ?_, ?_, ?_⟩ <;> · set_option maxRecDepth 10000 in decide

/-- Claim C2, amended.  A payload of exactly k × 230 bytes (k ≥ 1) produces
exactly k + 1 data frames: frames 1..k each carry 230 bytes and are marked
not-final (for transaction signing the first carries the initialization
marker and the later ones the continuation marker; for message signing all
of them carry the continuation marker), and frame k + 1 is an empty frame
marked continuation+final.  A 0-byte payload produces exactly one data
frame, with empty data and the terminal marker, and no intermediate
frames. -/
theorem C2_chunking_amended (k : Nat) (hk : 1 ≤ k) (payload : List Nat)
    (hlen : payload.length = k * 230) :
    (signAnnotatedTransactionFrames payload).length = k + 1 ∧
    (∀ i, i < k →
      ((signAnnotatedTransactionFrames payload).getD i default).p1
          = (if i = 0 then P1_INIT else P1_CONTINUE) ∧
      ((signAnnotatedTransactionFrames payload).getD i default).data.length
          = 230) ∧
    ((signAnnotatedTransactionFrames payload).getD k default).p1 = P1_FINAL ∧
    ((signAnnotatedTransactionFrames payload).getD k default).data = [] ∧
    (signMessageDataFrames payload).length = k + 1 ∧
    (∀ i, i < k →
      ((signMessageDataFrames payload).getD i default).p1 = P1_CONTINUE ∧
      ((signMessageDataFrames payload).getD i default).data.length = 230) ∧
    ((signMessageDataFrames payload).getD k default).p1 = P1_FINAL ∧
    ((signMessageDataFrames payload).getD k default).data = [] ∧
    (signAnnotatedTransactionFrames []).length = 1 ∧
    ((signAnnotatedTransactionFrames []).getD 0 default).p1
        = P1_INIT ||| P1_LAST_MARKER ∧
    ((signAnnotatedTransactionFrames []).getD 0 default).data = [] ∧
    (signMessageDataFrames []).length = 1 ∧
    ((signMessageDataFrames []).getD 0 default).p1 = P1_FINAL ∧
    ((signMessageDataFrames []).getD 0 default).data = [] := by
  have hk0 : k ≠ 0 := by omega
  have hdiv : payload.length / 230 = k := by
    rw [hlen]; exact Nat.mul_div_cancel k (by norm_num)
  have hdrop : payload.drop (k * 230) = [] :=
    List.drop_eq_nil_of_le (by omega)
  have hfr : signAnnotatedTransactionFrames payload =
      (List.range k).map (fun i =>
        { cla := 0x80, ins := 0x03, p1 := if i = 0 then 0x00 else 0x01,
          p2 := 0x00, data := (payload.drop (i * 230)).take 230 }) ++
      [{ cla := 0x80, ins := 0x03, p1 := 0x01 ||| 0x80, p2 := 0x00,
         data := [] }] := by
    simp only [signAnnotatedTransactionFrames, hdiv, hdrop, if_neg hk0,
      List.take_nil]
  have hfr2 : signMessageDataFrames payload =
      (List.range k).map (fun i =>
        { cla := CLA, ins := INS_SIGN_MSG, p1 := P1_CONTINUE, p2 := P2_DEFAULT,
          data := (payload.drop (i * 230)).take 230 }) ++
      [{ cla := CLA, ins := INS_SIGN_MSG, p1 := P1_FINAL, p2 := P2_DEFAULT,
         data := [] }] := by
    simp only [signMessageDataFrames, MAX_APDU_SIZE, hdiv, hdrop]
  have hchunk : ∀ i, i < k → ((payload.drop (i * 230)).take 230).length = 230 := by
    intro i hi
    have h2 : (i + 1) * 230 ≤ k * 230 := Nat.mul_le_mul_right 230 hi
    rw [List.length_take, List.length_drop, hlen]
    omega
  have hmap : ∀ (f : Nat → APDU) (x : APDU) (i : Nat), i < k →
      ((List.range k).map f ++ [x]).getD i default = f i := by
    intro f x i hi
    rw [List.getD_append _ _ _ i (by simpa using hi), List.getD_eq_getElem?_getD,
      List.getElem?_map, List.getElem?_range hi]
    rfl
  have hlast : ∀ (f : Nat → APDU) (x : APDU),
      ((List.range k).map f ++ [x]).getD k default = x := by
    intro f x
    rw [List.getD_eq_getElem?_getD, List.getElem?_append_right (by simp)]
    simp
  refine ⟨?_, ?_, ?_, ?_, ?_, ?_, ?_, ?_, ?_, ?_, ?_, ?_, ?_, ?_⟩
  · rw [hfr]; simp
  · intro i hi
    rw [hfr, hmap _ _ i hi]
    refine ⟨?_, hchunk i hi⟩
    by_cases h0 : i = 0 <;> simp [h0, P1_INIT, P1_CONTINUE]
  · rw [hfr, hlast]; decide
  · rw [hfr, hlast]
  · rw [hfr2]; simp
  · intro i hi
    rw [hfr2, hmap _ _ i hi]
    exact ⟨rfl, hchunk i hi⟩
  · rw [hfr2, hlast]
  · rw [hfr2, hlast]
  · decide
  · decide
  · decide
  · decide
  · decide
  · decide

/-- Witness for claim C2: a concrete 460-byte payload yields three message
data frames. -/
theorem C2_chunking_witness :
    (signMessageDataFrames (List.replicate 460 0)).length = 2 + 1 :=
  (C2_chunking_amended 2 (by norm_num) (List.replicate 460 0)
    (by rw [List.length_replicate])).2.2.2.2.1

/-- Claim C3, counterexample.  The claim predicts that a final response
shorter than 65 bytes makes the operation fail with `ProtocolError`.
Evaluated on a 64-byte response, both signing operations complete and
return all 64 bytes as the signature; no error path exists. -/
theorem C3_signature_counterexample :
    signAnnotatedTransactionResult (List.replicate 64 0) = List.replicate 64 0 ∧
    (signAnnotatedTransactionResult (List.replicate 64 0)).length ≠ 65 ∧
    signMessageResult (List.replicate 64 0) = List.replicate 64 0 ∧
    (signMessageResult (List.replicate 64 0)).length ≠ 65 := by
  have h : signAnnotatedTransactionResult (List.replicate 64 0)
      = List.replicate 64 0 := List.take_of_length_le (by simp)
  have h2 : signMessageResult (List.replicate 64 0)
      = List.replicate 64 0 := List.take_of_length_le (by simp [SIGNATURE_SIZE])
  exact ⟨h, by rw [h]; simp, h2, by rw [h2]; simp⟩

/-- Claim C3, amended.  The returned signature is the first 65 bytes of the
response to the final chunk whenever that response has at least 65 bytes;
a shorter response is returned in its entirety — a signature of fewer than
65 bytes — and no error is raised. -/
theorem C3_signature_amended (finalResponse : List Nat) :
    (65 ≤ finalResponse.length →
      signAnnotatedTransactionResult finalResponse = finalResponse.take 65 ∧
      (signAnnotatedTransactionResult finalResponse).length = 65 ∧
      signMessageResult finalResponse = finalResponse.take 65 ∧
      (signMessageResult finalResponse).length = 65) ∧
    (finalResponse.length < 65 →
      signAnnotatedTransactionResult finalResponse = finalResponse ∧
      (signAnnotatedTransactionResult finalResponse).length
          = finalResponse.length ∧
      signMessageResult finalResponse = finalResponse ∧
      (signMessageResult finalResponse).length = finalResponse.length) := by
  constructor
  · intro h
    refine ⟨rfl, ?_, rfl, ?_⟩ <;>
      · simp [signAnnotatedTransactionResult, signMessageResult, SIGNATURE_SIZE,
          List.length_take]
        omega
  · intro h
    have h1 : signAnnotatedTransactionResult finalResponse = finalResponse :=
      List.take_of_length_le (by omega)
    have h2 : signMessageResult finalResponse = finalResponse :=
      List.take_of_length_le (by simp [SIGNATURE_SIZE]; omega)
    exact ⟨h1, by rw [h1], h2, by rw [h2]⟩

/-- Witness for claim C3: on a concrete 70-byte response the extracted
signature has exactly 65 bytes. -/
theorem C3_signature_witness :
    (signAnnotatedTransactionResult (List.replicate 70 1)).length = 65 :=
  (((C3_signature_amended (List.replicate 70 1)).1 (by simp)).2).1

theorem except_bind_error {ε β γ : Type} (e : ε) (f : β → Except ε γ) :
    ((Except.error e : Except ε β) >>= f) = Except.error e := rfl

theorem except_bind_ok {ε β γ : Type} (b : β) (f : β → Except ε γ) :
    ((Except.ok b : Except ε β) >>= f) = f b := rfl

theorem except_map_error {ε β γ : Type} (f : β → γ) (e : ε) :
    (f <$> (Except.error e : Except ε β)) = Except.error e := rfl

theorem except_map_ok {ε β γ : Type} (f : β → γ) (b : β) :
    (f <$> (Except.ok b : Except ε β)) = Except.ok (f b) := rfl

/-- Claim C5.  When the witnesses argument of `buildAnnotatedTransaction`
is omitted or an empty sequence, the built transaction carries exactly the
one-element witness list holding the fixed sighash placeholder; a supplied
nonempty witness sequence is used unchanged. -/
theorem C5_default_witnesses {α : Type} (decode : String → RawTx α)
    (sp cp : PathSrc) (rt : RawTxSrc α) (gw : Option (List String))
    (ctxs : List (RawTxSrc α)) (t : AnnotatedTx α)
    (h : buildAnnotatedTransaction decode sp rt gw ctxs cp = .ok t) :
    ((gw = none ∨ gw = some []) → t.witnesses = [defaultSighashWitness]) ∧
    (∀ ws, gw = some ws → ws ≠ [] → t.witnesses = ws) := by
  have hw : t.witnesses =
      match gw with
      | some ws => if ws.length > 0 then ws else [defaultSighashWitness]
      | none => [defaultSighashWitness] := by
    unfold buildAnnotatedTransaction at h
    cases hsp : prepBipPath sp with
    | error e =>
        rw [hsp] at h
        simp only [except_bind_error, except_map_error] at h
        exact Except.noConfusion h
    | ok v =>
        rw [hsp] at h
        simp only [except_bind_ok] at h
        cases hcp : prepBipPath cp with
        | error e =>
            rw [hcp] at h
            simp only [except_bind_error, except_map_error] at h
            exact Except.noConfusion h
        | ok w =>
            rw [hcp] at h
            simp only [except_bind_ok, except_map_ok, pure, Except.pure,
              Except.ok.injEq] at h
            subst h
            cases gw <;> rfl
  rw [hw]
  constructor
  · rintro (rfl | rfl) <;> simp
  · rintro ws rfl hne
    simp [List.length_pos.mpr hne]

/-- Witness for claim C5: a concrete call with the supplied witness list
["ab"] keeps it unchanged. -/
theorem C5_default_witnesses_witness :
    (okValue (buildAnnotatedTransaction sampleDecode (.arr [44])
        (.json sampleRawTx) (some ["ab"]) [.json sampleRawTx]
        (.arr [44]))).witnesses = ["ab"] :=
  (C5_default_witnesses sampleDecode (.arr [44]) (.arr [44]) (.json sampleRawTx)
      (some ["ab"]) [.json sampleRawTx]
      (okValue (buildAnnotatedTransaction sampleDecode (.arr [44])
        (.json sampleRawTx) (some ["ab"]) [.json sampleRawTx] (.arr [44])))
      rfl).2 ["ab"] rfl (by simp)

/-- Claim C9.  The raw transaction inside a built annotated transaction is
identical to the input raw transaction in version, cell_deps, header_deps,
outputs and outputs_data; the inputs become index-paired annotated cell
inputs, entry i pairing input i with context transaction i when the counts
agree. -/
theorem C9_frame_preservation {α : Type} (decode : String → RawTx α)
    (sp cp : PathSrc) (rt : RawTx α) (gw : Option (List String))
    (ctxs : List (RawTxSrc α)) (t : AnnotatedTx α)
    (h : buildAnnotatedTransaction decode sp (.json rt) gw ctxs cp = .ok t) :
    t.raw.version = rt.version ∧
    t.raw.cell_deps = rt.cell_deps ∧
    t.raw.header_deps = rt.header_deps ∧
    t.raw.outputs = rt.outputs ∧
    t.raw.outputs_data = rt.outputs_data ∧
    t.inputCount = rt.inputs.length ∧
    t.raw.inputs = rt.inputs.mapIdx (fun idx inpt =>
      { input := inpt,
        source := (ctxs.map (getRawTransactionJSON decode))[idx]? }) ∧
    (ctxs.length = rt.inputs.length → ∀ i, i < rt.inputs.length →
      ∃ inp c, rt.inputs[i]? = some inp ∧
        (ctxs.map (getRawTransactionJSON decode))[i]? = some c ∧
        t.raw.inputs[i]? = some { input := inp, source := some c }) := by
  unfold buildAnnotatedTransaction at h
  cases hsp : prepBipPath sp with
  | error e =>
      rw [hsp] at h
      simp only [except_bind_error, except_map_error] at h
      exact Except.noConfusion h
  | ok v =>
      rw [hsp] at h
      simp only [except_bind_ok] at h
      cases hcp : prepBipPath cp with
      | error e =>
          rw [hcp] at h
          simp only [except_bind_error, except_map_error] at h
          exact Except.noConfusion h
      | ok w =>
          rw [hcp] at h
          simp only [except_bind_ok, except_map_ok, pure, Except.pure,
            Except.ok.injEq] at h
          subst h
          refine ⟨rfl, rfl, rfl, rfl, rfl, rfl, rfl, ?_⟩
          intro hctx i hi
          have hmapl : i < (ctxs.map (getRawTransactionJSON decode)).length := by
            simpa [hctx] using hi
          refine ⟨rt.inputs[i], (ctxs.map (getRawTransactionJSON decode))[i],
            List.getElem?_eq_getElem hi, List.getElem?_eq_getElem hmapl, ?_⟩
          simp only [getRawTransactionJSON, List.getElem?_mapIdx,
            List.getElem?_eq_getElem hi, Option.map_some]
          rw [List.getElem?_eq_getElem hmapl]
          rfl

/-- Witness for claim C9: a concrete call preserves the version field of
the raw transaction. -/
theorem C9_frame_preservation_witness :
    (okValue (buildAnnotatedTransaction sampleDecode (.arr [44])
        (.json sampleRawTx) none [.json sampleRawTx]
        (.arr [44]))).raw.version = sampleRawTx.version :=
  (C9_frame_preservation sampleDecode (.arr [44]) (.arr [44]) sampleRawTx none
      [.json sampleRawTx]
      (okValue (buildAnnotatedTransaction sampleDecode (.arr [44])
        (.json sampleRawTx) none [.json sampleRawTx] (.arr [44])))
      rfl).1

theorem parseSegmentChars_lt (cs : List Char) (n : Nat)
    (h : parseSegmentChars cs = some n) : n < 2 ^ 32 := by
  simp only [parseSegmentChars] at h
  split_ifs at h <;> rw [Option.some.injEq] at h <;> subst h <;>
    rename_i hm hne hlt
  · have hlt2 : charsToNat cs.dropLast < 2147483648 := hlt
    show charsToNat cs.dropLast + 2147483648 < 2 ^ 32
    omega
  · have hlt2 : charsToNat cs < 2147483648 := hlt
    show charsToNat cs < 2 ^ 32
    omega

theorem mapM_parseSegmentChars_lt (ss : List (List Char)) (p : List Nat)
    (h : ss.mapM parseSegmentChars = some p) : ∀ x ∈ p, x < 2 ^ 32 := by
  induction ss generalizing p with
  | nil =>
      simp only [List.mapM_nil, Option.pure_def, Option.some.injEq] at h
      subst h
      intro x hx
      simp at hx
  | cons s rest ih =>
      rw [List.mapM_cons] at h
      cases hs : parseSegmentChars s with
      | none => rw [hs] at h; simp at h
      | some m =>
          rw [hs] at h
          cases hr : rest.mapM parseSegmentChars with
          | none => rw [hr] at h; simp at h
          | some q =>
              rw [hr] at h
              simp only [Option.bind_eq_bind, Option.some_bind, Option.pure_def,
                Option.some.injEq] at h
              subst h
              intro x hx
              rcases List.mem_cons.mp hx with rfl | hx2
              · exact parseSegmentChars_lt s x hs
              · exact ih q hr x hx2

theorem parseBipPath_lt (t : String) (p : List Nat)
    (h : parseBipPath t = some p) : ∀ x ∈ p, x < 2 ^ 32 := by
  simp only [parseBipPath] at h
  exact mapM_parseSegmentChars_lt _ p h

theorem flatten_uint32BE_length (p : List Nat) :
    ((p.map uint32BE).flatten).length = 4 * p.length := by
  induction p with
  | nil => simp
  | cons x rest ih =>
      simp only [List.map_cons, List.flatten_cons, List.length_append, ih,
        uint32BE, List.length_cons, List.length_nil]
      omega

theorem decodeSegments_flatten (p : List Nat) (hlt : ∀ x ∈ p, x < 2 ^ 32) :
    decodeSegments ((p.map uint32BE).flatten) = some p := by
  induction p with
  | nil => simp [decodeSegments]
  | cons x rest ih =>
      have hx : x < 2 ^ 32 := hlt x (by simp)
      have ih2 := ih (fun y hy => hlt y (by simp [hy]))
      have hval : (((x / 2 ^ 24 % 256) * 256 + x / 2 ^ 16 % 256) * 256
          + x / 2 ^ 8 % 256) * 256 + x % 256 = x := by
        omega
      simp only [List.map_cons, List.flatten_cons, uint32BE, List.cons_append,
        List.nil_append, decodeSegments, ih2, Option.map_some, hval]
      simp [ih2, hval]

/-- Claim C7.  The path encoding used in device requests is one length byte
equal to the segment count followed by exactly four big-endian bytes per
segment; the identical encoding is built by address derivation, by
extended-key retrieval and by the message-signing initialization header
(after its display-mode byte); and a path parsed from a valid string,
encoded, and parsed back from the bytes yields the same path. -/
theorem C7_path_encoding (s : String) (p : List Nat)
    (hp : parseBipPath s = some p) (hlen : p.length ≤ 255) :
    (encodePath p).getD 0 0 = p.length ∧
    (encodePath p).length = 1 + 4 * p.length ∧
    decodePath (encodePath p) = some p ∧
    getWalletPublicKeyData p = encodePath p ∧
    getWalletExtendedPublicKeyData p = encodePath p ∧
    (∀ d, signMessageInitData d p = (if d then 1 else 0) :: encodePath p) ∧
    (getWalletPublicKeyApdu p).data = encodePath p ∧
    (getWalletExtendedPublicKeyApdu p).data = encodePath p := by
  have hmod : p.length % 256 = p.length := Nat.mod_eq_of_lt (by omega)
  refine ⟨?_, ?_, ?_, rfl, rfl, fun d => rfl, rfl, rfl⟩
  · simp [encodePath, hmod]
  · simp only [encodePath, List.length_cons, flatten_uint32BE_length]
    omega
  · simp only [encodePath, decodePath, hmod]
    rw [flatten_uint32BE_length, if_pos rfl]
    exact decodeSegments_flatten p (parseBipPath_lt s p hp)

/-- Witness for claim C7: the concrete path parsed from "44/309/0/0/0"
encodes and decodes back to itself. -/
theorem C7_path_encoding_witness :
    decodePath (encodePath [44, 309, 0, 0, 0]) = some [44, 309, 0, 0, 0] :=
  (C7_path_encoding "44/309/0/0/0" [44, 309, 0, 0, 0] rfl (by norm_num)).2.2.1

theorem beNat_append (L : List Nat) (b : Nat) :
    beNat (L ++ [b]) = beNat L * 256 + b := by
  simp [beNat, List.foldl_append]

theorem beNat_mod_two (l : List Nat) (h : l ≠ []) :
    beNat l % 2 = l.getD (l.length - 1) 0 % 2 := by
  rcases List.eq_nil_or_concat l with rfl | ⟨L, b, rfl⟩
  · exact absurd rfl h
  · rw [List.concat_eq_append, beNat_append]
    have hlen : (L ++ [b]).length - 1 = L.length := by simp
    rw [hlen, List.getD_eq_getElem?_getD, List.getElem?_concat_length]
    have : (beNat L * 256 + b) % 2 = b % 2 := by omega
    simpa using this

/-- Claim C6.  For every 65-byte uncompressed public key extracted from the
device response, the post-processing of `getWalletPublicKey` computes: a
33-byte compressed key whose first byte is 0x02 when the Y coordinate is
even and 0x03 when it is odd, followed by the 32-byte X coordinate; a
20-byte lock argument equal to the first 20 bytes of the 32-byte
personalized blake2b digest of the compressed key; and an address equal to
the checksummed base-32 encoding, under the prefix "ckb" for mainnet and
"ckt" for testnet, of the payload made of format byte 0x00, the fixed
32-byte code-hash constant, hash-type byte 0x01 and the lock argument. -/
theorem C6_address_derivation (blake2b : Nat → List Nat → List Nat → List Nat)
    (hB : ∀ pers msg, (blake2b 32 pers msg).length = 32)
    (key rest : List Nat) (h65 : key.length = 65) (testnet : Bool) :
    (getWalletPublicKeyResult blake2b testnet (65 :: key ++ rest)).publicKey
        = key ∧
    compressedPublicKey key =
      (if yCoordinate key % 2 = 0 then 0x02 else 0x03) :: xCoordinate key ∧
    (compressedPublicKey key).length = 33 ∧
    (getWalletPublicKeyResult blake2b testnet (65 :: key ++ rest)).lockArg
        = (blake2b 32 hashPersonalization (compressedPublicKey key)).take 20 ∧
    (getWalletPublicKeyResult blake2b testnet
        (65 :: key ++ rest)).lockArg.length = 20 ∧
    SECP256K1_BLAKE160_CODE_HASH.length = 32 ∧
    (getWalletPublicKeyResult blake2b testnet (65 :: key ++ rest)).address
        = bech32mEncode (if testnet then "ckt" else "ckb")
            (toWords (0x00 :: SECP256K1_BLAKE160_CODE_HASH ++ 0x01 ::
              (getWalletPublicKeyResult blake2b testnet
                (65 :: key ++ rest)).lockArg))
            1023 := by
  have hkey : (key ++ rest).take 65 = key := by
    rw [← h65]; exact List.take_left key rest
  have hpk : (getWalletPublicKeyResult blake2b testnet
      (65 :: key ++ rest)).publicKey = (key ++ rest).take 65 := rfl
  have hpk2 : (getWalletPublicKeyResult blake2b testnet
      (65 :: key ++ rest)).publicKey = key := hpk.trans hkey
  have hy : key.getD 64 0 % 2 = yCoordinate key % 2 := by
    have hld : (key.drop 33).length = 32 := by rw [List.length_drop, h65]
    have hne : key.drop 33 ≠ [] := by
      intro hcon; rw [hcon] at hld; simp at hld
    rw [yCoordinate, beNat_mod_two (key.drop 33) hne, hld,
      List.getD_eq_getElem?_getD, List.getD_eq_getElem?_getD,
      List.getElem?_drop]
  have hcp : compressedPublicKey key =
      (if yCoordinate key % 2 = 0 then 0x02 else 0x03) :: xCoordinate key := by
    simp only [compressedPublicKey, xCoordinate]
    congr 1
    rw [Nat.and_one_is_mod, hy]
    rcases Nat.mod_two_eq_zero_or_one (yCoordinate key) with hpar | hpar <;>
      simp [hpar]
  have hcl : (compressedPublicKey key).length = 33 := by
    simp [compressedPublicKey, List.length_take, List.length_drop, h65]
  have hla : (getWalletPublicKeyResult blake2b testnet
      (65 :: key ++ rest)).lockArg
      = (blake2b 32 hashPersonalization
          (compressedPublicKey ((key ++ rest).take 65))).take 20 := rfl
  have hla2 : (getWalletPublicKeyResult blake2b testnet
      (65 :: key ++ rest)).lockArg
      = (blake2b 32 hashPersonalization (compressedPublicKey key)).take 20 := by
    rw [hla, hkey]
  have hlal : (getWalletPublicKeyResult blake2b testnet
      (65 :: key ++ rest)).lockArg.length = 20 := by
    rw [hla2, List.length_take, hB]
    omega
  refine ⟨hpk2, hcp, hcl, hla2, hlal, by decide, rfl⟩

/-- Witness for claim C6: with a concrete hash collaborator returning
 32-byte digests and a concrete 65-byte key, the lock argument has exactly
20 bytes. -/
theorem C6_address_derivation_witness :
    (getWalletPublicKeyResult sampleBlake2b true
        (65 :: List.range 65 ++ [0])).lockArg.length = 20 :=
  (C6_address_derivation sampleBlake2b (fun pers msg => by simp [sampleBlake2b])
    (List.range 65) [0] (by simp) true).2.2.2.2.1

theorem emitWords_eq (v bits : Nat) :
    emitWords v bits =
      if 5 ≤ bits then
        (((v >>> (bits - 5)) &&& 31) :: (emitWords v (bits - 5)).1,
          (emitWords v (bits - 5)).2)
      else ([], bits) := by
  rw [emitWords]

theorem emitWords_all_lt (v : Nat) : ∀ bits, ∀ w ∈ (emitWords v bits).1, w < 32 := by
  intro bits
  induction bits using Nat.strong_induction_on with
  | _ bits ih =>
      rw [emitWords_eq]
      by_cases h5 : 5 ≤ bits
      · rw [if_pos h5]
        intro w hw
        rcases List.mem_cons.mp hw with rfl | hw2
        · have h31 : v >>> (bits - 5) &&& 31 ≤ 31 := Nat.and_le_right
          omega
        · exact ih (bits - 5) (by omega) w hw2
      · rw [if_neg h5]
        intro w hw
        simp at hw

theorem emitWords_length (v : Nat) : ∀ bits,
    (emitWords v bits).1.length = bits / 5 ∧ (emitWords v bits).2 = bits % 5 := by
  intro bits
  induction bits using Nat.strong_induction_on with
  | _ bits ih =>
      rw [emitWords_eq]
      by_cases h5 : 5 ≤ bits
      · rw [if_pos h5]
        obtain ⟨ih1, ih2⟩ := ih (bits - 5) (by omega)
        constructor
        · simp only [List.length_cons, ih1]
          omega
        · simp only [ih2]
          omega
      · rw [if_neg h5]
        constructor
        · simp only [List.length_nil]
          omega
        · simp only []
          omega

theorem convertBitsLoop_all_lt : ∀ (l : List Nat) (v bits : Nat),
    ∀ w ∈ convertBitsLoop l v bits, w < 32 := by
  intro l
  induction l with
  | nil =>
      intro v bits w hw
      simp only [convertBitsLoop] at hw
      split at hw
      · rcases List.mem_singleton.mp hw with rfl
        have h31 : (v <<< (5 - bits)) &&& 31 ≤ 31 := Nat.and_le_right
        omega
      · simp at hw
  | cons b rest ih =>
      intro v bits w hw
      simp only [convertBitsLoop] at hw
      rcases List.mem_append.mp hw with hw1 | hw2
      · exact emitWords_all_lt _ _ w hw1
      · exact ih _ _ w hw2

theorem convertBitsLoop_length_le : ∀ (l : List Nat) (v bits : Nat), bits < 5 →
    (convertBitsLoop l v bits).length ≤ 2 * l.length + 1 := by
  intro l
  induction l with
  | nil =>
      intro v bits hb
      simp only [convertBitsLoop]
      split <;> simp
  | cons b rest ih =>
      intro v bits hb
      simp only [convertBitsLoop, List.length_append]
      obtain ⟨he1, he2⟩ := emitWords_length ((v <<< 8) ||| b) (bits + 8)
      have hrec := ih ((v <<< 8) ||| b)
        ((emitWords ((v <<< 8) ||| b) (bits + 8)).2) (by rw [he2]; omega)
      rw [he1]
      simp only [List.length_cons]
      omega

theorem toWords_all_lt (bytes : List Nat) : ∀ w ∈ toWords bytes, w < 32 :=
  fun w hw => convertBitsLoop_all_lt bytes 0 0 w hw

theorem toWords_length_le (bytes : List Nat) :
    (toWords bytes).length ≤ 2 * bytes.length + 1 :=
  convertBitsLoop_length_le bytes 0 0 (by norm_num)

theorem bech32mEncode_eq_some (hrp : String) (words : List Nat) (limit : Nat)
    (h1 : ¬ hrp.length + 7 + words.length > limit)
    (h2 : String.mk (hrp.data.map Char.toLower) = hrp)
    (h3 : hrpValid hrp = true)
    (h4 : words.all (fun w => decide (w < 32)) = true) :
    bech32mEncode hrp words limit =
      some (String.mk (hrp.data ++ '1' :: bech32mData hrp words)) := by
  have h2d : List.map Char.toLower hrp.data = hrp.data := congrArg String.data h2
  simp only [bech32mEncode, if_neg h1, h2, h3, h4, h2d]
  simp

/-- Claim C8.  Address derivation is deterministic and
network-discriminating: for any device response and any hash collaborator,
the mainnet and testnet addresses derived from it are never equal, and the
address depends on the response only through the extracted public key, so
two derivations with the same key and the same network flag return equal
addresses. -/
theorem C8_network_discrimination
    (blake2b : Nat → List Nat → List Nat → List Nat) (response : List Nat) :
    (getWalletPublicKeyResult blake2b false response).address ≠
      (getWalletPublicKeyResult blake2b true response).address ∧
    (∀ (response2 : List Nat) (testnet : Bool),
      (getWalletPublicKeyResult blake2b testnet response).publicKey =
        (getWalletPublicKeyResult blake2b testnet response2).publicKey →
      (getWalletPublicKeyResult blake2b testnet response).address =
        (getWalletPublicKeyResult blake2b testnet response2).address) := by
  constructor
  · set la := deriveLockArg blake2b
      ((response.drop 1).take (response.getD 0 0)) with hladef
    have hlal : la.length ≤ 20 := by
      rw [hladef, deriveLockArg, List.length_take]
      omega
    have hch : SECP256K1_BLAKE160_CODE_HASH.length = 32 := by decide
    have hcont : (addrContents la).length = 34 + la.length := by
      simp [addrContents, hch]
      omega
    have hall : (toWords (addrContents la)).all
        (fun w => decide (w < 32)) = true := by
      rw [List.all_eq_true]
      intro x hx
      simpa using toWords_all_lt (addrContents la) x hx
    have hwl : (toWords (addrContents la)).length ≤ 109 := by
      have := toWords_length_le (addrContents la)
      omega
    have hlim1 : ¬ ("ckb".length + 7 + (toWords (addrContents la)).length
        > 1023) := by
      have h3 : ("ckb" : String).length = 3 := by decide
      omega
    have hlim2 : ¬ ("ckt".length + 7 + (toWords (addrContents la)).length
        > 1023) := by
      have h3 : ("ckt" : String).length = 3 := by decide
      omega
    have he1 := bech32mEncode_eq_some "ckb" (toWords (addrContents la)) 1023
      hlim1 (by decide) (by decide) hall
    have he2 := bech32mEncode_eq_some "ckt" (toWords (addrContents la)) 1023
      hlim2 (by decide) (by decide) hall
    have e1 : (getWalletPublicKeyResult blake2b false response).address
        = bech32mEncode "ckb" (toWords (addrContents la)) 1023 := rfl
    have e2 : (getWalletPublicKeyResult blake2b true response).address
        = bech32mEncode "ckt" (toWords (addrContents la)) 1023 := rfl
    intro heq
    rw [e1, e2, he1, he2] at heq
    simp only [Option.some.injEq] at heq
    have hlist : "ckb".data ++ '1' :: bech32mData "ckb"
          (toWords (addrContents la))
        = "ckt".data ++ '1' :: bech32mData "ckt" (toWords (addrContents la)) :=
      congrArg String.data heq
    rw [show "ckb".data = ['c', 'k', 'b'] from rfl,
      show "ckt".data = ['c', 'k', 't'] from rfl] at hlist
    simp at hlist
  · intro response2 testnet hk
    have e1 : (getWalletPublicKeyResult blake2b testnet response).address
        = bech32mEncode (if testnet then "ckt" else "ckb")
            (toWords (addrContents (deriveLockArg blake2b
              (getWalletPublicKeyResult blake2b testnet response).publicKey)))
            BECH32_LIMIT := rfl
    have e2 : (getWalletPublicKeyResult blake2b testnet response2).address
        = bech32mEncode (if testnet then "ckt" else "ckb")
            (toWords (addrContents (deriveLockArg blake2b
              (getWalletPublicKeyResult blake2b testnet response2).publicKey)))
            BECH32_LIMIT := rfl
    rw [e1, e2, hk]

/-- Witness for claim C8: on a concrete response the mainnet and testnet
addresses differ, and equal extracted keys give equal addresses. -/
theorem C8_network_discrimination_witness :
    (getWalletPublicKeyResult sampleBlake2b false [65]).address ≠
      (getWalletPublicKeyResult sampleBlake2b true [65]).address ∧
    (getWalletPublicKeyResult sampleBlake2b false [65]).address =
      (getWalletPublicKeyResult sampleBlake2b false [65]).address :=
  ⟨(C8_network_discrimination sampleBlake2b [65]).1,
   (C8_network_discrimination sampleBlake2b [65]).2 [65] false rfl⟩

end HwAppCkb
